import Mathlib

/-!
Theme controller (`www/controllers/theme.js`).

A shallow embedding of the themed-page controller: the comment sanitiser
`formatComment`, the comment submission pipeline `createCommentByType` with its
three routes, the hot-article selection `getHotArticles`, the render gate
`processTheme`, and the routes `GET /article/:id`, `GET /wiki/:wid/:pid` and
`GET /search`.

Conventions of the embedding.

* A JavaScript string is a Lean `String`; the regular-expression code works on
  its list of characters.
* A Node callback `(err, value)` is a `Cb`: `none` stands for `null` or
  `undefined` in either position.
* A route is a function to the list of `Effect`s it performs, in order: the
  calls to collaborators (APIs, cache, search engine) and what it does with
  `res` and `next`.  Reading a property of `undefined` ends the run with
  `Effect.throwTypeError`.
* The collaborators that live outside this file (`./articleApi`, `../cache`,
  `./_utils`, configuration, constants) are fields of `Env`.
* `async.waterfall` and `async.parallel` are library code, embedded by their
  behaviour (see `asyncParallel`).  `Array.prototype.sort` is engine code,
  embedded as the algorithm the engine of Node runs (see `arraySort`).
* An array is a reference into a `Heap`, so that writing in place and copying
  differ.
-/

set_option autoImplicit false

namespace Theme

/-! ## Strings and regular-expression replacement -/

/-- Global replacement `s.replace(/re/g, repl)` for a regular expression that never
matches the empty string.  `matchAt rest` is the length of the match of the expression
at the start of `rest` (`0`: no match there).  The first argument counts the characters
of the current match still to be consumed. -/
def replaceAll (matchAt : List Char → Nat) (repl : List Char) : Nat → List Char → List Char
  | _, [] => []
  | skip + 1, _ :: cs => replaceAll matchAt repl skip cs
  | 0, c :: cs =>
    match matchAt (c :: cs) with
    | 0 => c :: replaceAll matchAt repl 0 cs
    | n + 1 => repl ++ replaceAll matchAt repl n cs

/-- Match length of `/\n+/` at the start of the input: the whole run of newlines. -/
def matchNewlines (cs : List Char) : Nat :=
  (cs.takeWhile (fun c => c == '\n')).length

/-- Case-insensitive literal match (flag `i`, no flag `u`) of an ASCII lower-case pattern
at the start of the input: a character matches a pattern letter when it is that letter
in either ASCII case. -/
def startsWithCI : List Char → List Char → Bool
  | [], _ => true
  | _ :: _, [] => false
  | p :: ps, c :: cs => (c.toLower == p) && startsWithCI ps cs

/-- Match length of `/<\/?script\>/i` at the start of the input. -/
def matchScriptTag (cs : List Char) : Nat :=
  if startsWithCI "</script>".data cs then 9
  else if startsWithCI "<script>".data cs then 8
  else 0

/-- The function `formatComment(s)`:
`s.replace(/\n+/g, '\n').replace(/<\/?script\>/ig, '')`. -/
def formatComment (s : String) : String :=
  ⟨replaceAll matchScriptTag [] 0 (replaceAll matchNewlines ['\n'] 0 s.data)⟩

/-- WhiteSpace and LineTerminator code points, the characters `String.prototype.trim`
strips. -/
def isJsWhitespace (c : Char) : Bool :=
  c.val = 0x9 || c.val = 0xA || c.val = 0xB || c.val = 0xC || c.val = 0xD || c.val = 0x20 ||
  c.val = 0xA0 || c.val = 0x1680 || (0x2000 ≤ c.val && c.val ≤ 0x200A) ||
  c.val = 0x2028 || c.val = 0x2029 || c.val = 0x202F || c.val = 0x205F ||
  c.val = 0x3000 || c.val = 0xFEFF

/-- The method `String.prototype.trim`. -/
def jsTrim (s : String) : String :=
  ⟨((s.data.dropWhile isJsWhitespace).reverse.dropWhile isJsWhitespace).reverse⟩

/-- A script tag occurs in the text: some suffix starts, ignoring letter case, with
`<script>` or `</script>`. -/
def containsScriptTag : List Char → Bool
  | [] => false
  | c :: cs =>
    startsWithCI "<script>".data (c :: cs) || startsWithCI "</script>".data (c :: cs) ||
      containsScriptTag cs

/-- Two newline characters stand next to each other in the text. -/
def hasDoubleNewline : List Char → Bool
  | c :: d :: cs => (c == '\n' && d == '\n') || hasDoubleNewline (d :: cs)
  | _ => false

/-! ## Data model -/

/-- Error values built by `../api` (`api.notAllowed`, `api.invalidParam`, `api.notFound`)
and any other error a collaborator reports. -/
inductive ApiError where
  | notAllowed (message : String)
  | invalidParam (field message : String)
  | notFound (kind : String)
  | other (message : String)
  deriving DecidableEq, Repr

/-- Arguments `(err, value)` of a Node callback; `none` is `null` or `undefined`. -/
structure Cb (α : Type) where
  err : Option ApiError
  val : Option α
  deriving DecidableEq, Repr

/-- A value the controller only passes along (settings, navigations, category, comments,
user, tree children, search items), kept by its serialisation. -/
abbrev Payload := String

/-- An article; `reads` and `html_content` are absent until the controller sets them. -/
structure Article where
  id : String
  publish_at : Int
  category_id : String
  content : String
  reads : Option Int
  html_content : Option String
  deriving DecidableEq, Repr

/-- A wiki, as far as the controller reads it. -/
structure Wiki where
  id : String
  deriving DecidableEq, Repr

/-- A wiki page; `reads` is absent until the controller sets it. -/
structure WikiPage where
  id : String
  wiki_id : String
  content : String
  reads : Option Int
  deriving DecidableEq, Repr

/-- The result of `wikiApi.getWikiTree`. -/
structure WikiTree where
  id : String
  children : Option Payload
  deriving DecidableEq, Repr

/-- The result of `commentApi.getCommentsByRef`. -/
structure CommentsResult where
  comments : Option Payload
  nextCommentId : Option Payload
  deriving DecidableEq, Repr

/-- The cursor `utils.getPage(req)` returns; `totalItems` is set once the count is known. -/
structure Page where
  offset : Int
  itemsPerPage : Int
  totalItems : Option Int
  deriving DecidableEq, Repr

/-- The filter object `{ field, value }` of a search request. -/
structure SearchFilter where
  field : String
  value : String
  deriving DecidableEq, Repr

/-- The options object `opt` passed to `searchEngine.search`. -/
structure SearchOpt where
  filter : Option SearchFilter
  start : Int
  hit : Int
  deriving DecidableEq, Repr

/-- The object `r.result` of a search response. -/
structure SearchResult where
  items : Option Payload
  total : Option Int
  deriving DecidableEq, Repr

/-- The response `r` of the search engine. -/
structure SearchResponse where
  status : String
  result : Option SearchResult
  deriving DecidableEq, Repr

/-- The request, as far as the controller reads it. -/
structure Req where
  host : String
  user : Option Payload
  params : String → String
  query : String → Option String
  body : String → Option String

/-- The response object, as far as the controller reads it. -/
structure Res where
  themePath : String

/-- The view model a route hands to `processTheme`. -/
inductive PageModel where
  | article (article : Article) (category : Option Payload)
      (comments nextCommentId : Option Payload)
  | wikiPage (page : WikiPage) (wiki : Option WikiTree) (tree : Option Payload)
      (html_content : String) (comments : Option Payload)
  | search (searchTypes : List (String × String)) (type : Option String) (page : Page)
      (q : String) (results : Option Payload)
  | other (model : Payload)
  deriving DecidableEq, Repr

/-- The view model after `processTheme` added the theme context. -/
structure ThemeModel where
  page : PageModel
  website : Option Payload
  navigations : Option Payload
  signins : List String
  user : Option Payload
  time : Int
  requestHost : String
  deriving DecidableEq, Repr

/-- What a route does, in order: calls to collaborators and uses of `res` and `next`. -/
inductive Effect where
  | cacheGet (key : String)
  | incr (id : String)
  | getArticle (id : String)
  | getCategory (id : String)
  | getCommentsByRef (id : String)
  | getWiki (id : String)
  | getWikiPage (id : String)
  | getWikiPageWithContent (id : String)
  | getWikiTree (id : String)
  | createComment (ref_type ref_id : String) (user : Option Payload) (content : String)
  | sendToSNS (user : Option Payload) (content url : String)
  | search (q : String) (opt : SearchOpt)
  | next (e : ApiError)
  | render (path : String) (model : ThemeModel)
  | send (comment : Option Payload)
  | sendStatus (code : Nat)
  | redirect (url : String)
  | throwTypeError
  deriving DecidableEq, Repr

/-- The effect is a call of `commentApi.createComment`. -/
def Effect.isCreateComment : Effect → Bool
  | .createComment _ _ _ _ => true
  | _ => false

/-- The effect is a target lookup of a comment route. -/
def Effect.isTargetLookup : Effect → Bool
  | .getArticle _ => true
  | .getWiki _ => true
  | .getWikiPage _ => true
  | _ => false

/-- The collaborators of the controller: configuration, constants, the clock, and the
result each API reports for each argument.  `σ` is the state of the counter backend,
which only `cache.incr` changes. -/
structure Env (σ : Type) where
  signins : List String
  isSyncComments : Bool
  searchExternal : Bool
  cacheKeyWebsiteSettings : String
  cacheKeyNavigations : String
  now : Int
  renderTime : Int
  cacheGet : String → Cb Payload
  navigationsFirst : Bool
  incr : σ → String → σ × Cb Int
  getArticle : String → Cb Article
  getCategory : String → Cb Payload
  getCommentsByRef : String → Cb CommentsResult
  getWiki : String → Cb Wiki
  getWikiPage : String → Cb WikiPage
  getWikiPageWithContent : String → Cb WikiPage
  getWikiTree : String → Cb WikiTree
  createComment : String → String → Option Payload → String → Cb Payload
  isForbidden : Req → Bool
  getRequiredParam : String → Req → Except ApiError String
  getPage : Req → Page
  md2html : String → String
  searchUrl : String → String
  search : String → SearchOpt → Cb SearchResponse

/-! ## The render gate -/

/-- The functions `appendSettings` and `appendNavigations`: the callback of `cache.get`
passes the error alone, or `null` and the value. -/
def appendCached (r : Cb Payload) : Cb Payload :=
  match r.err with
  | some e => ⟨some e, none⟩
  | none => ⟨none, r.val⟩

/-- The results object of `async.parallel`: the value of a key, `undefined` when the key
is not set. -/
def resultsGet (results : List (String × Option Payload)) (key : String) : Option Payload :=
  match results.find? (fun kv => kv.1 == key) with
  | some kv => kv.2
  | none => none

/-- The library function `async.parallel` over an object of tasks, given the task
completions in the order they happen: each completion stores `results[k]`; the first
error calls the final callback at once with `(err, results)`, later completions are
ignored; when all tasks completed without error the final callback gets `(null, results)`. -/
def asyncParallel : List (String × Cb Payload) → List (String × Option Payload) →
    Option ApiError × List (String × Option Payload)
  | [], results => (none, results)
  | (k, r) :: rest, results =>
    match r.err with
    | some e => (some e, (k, r.val) :: results)
    | none => asyncParallel rest ((k, r.val) :: results)

/-- The function `processTheme(view, model, req, res, next)`. -/
def processTheme {σ : Type} (env : Env σ) (view : String) (model : PageModel) (req : Req)
    (res : Res) : List Effect :=
  let website := ("website", appendCached (env.cacheGet env.cacheKeyWebsiteSettings))
  let navigations := ("navigations", appendCached (env.cacheGet env.cacheKeyNavigations))
  let completions := if env.navigationsFirst then [navigations, website]
    else [website, navigations]
  -- function (err, results): `err` is not read
  let results := (asyncParallel completions []).2
  [ Effect.cacheGet env.cacheKeyWebsiteSettings,
    Effect.cacheGet env.cacheKeyNavigations,
    Effect.render (res.themePath ++ view)
      { page := model
        website := resultsGet results "website"
        navigations := resultsGet results "navigations"
        signins := env.signins
        user := req.user
        time := env.renderTime
        requestHost := req.host } ]

/-! ## Comment submission -/

/-- What a target lookup of a comment route does with the callback of
`createCommentByType`: it calls it with `(err, entity, path)` (the callback does not read
`entity`), or building the arguments throws before the call. -/
inductive CheckOutcome where
  | threw
  | called (err : Option ApiError) (path : String)
  deriving DecidableEq, Repr

/-- The function `createCommentByType(ref_type, checkFunction, req, res, next)`.
`checkFunction ref_id` gives the calls the lookup makes and its outcome. -/
def createCommentByType {σ : Type} (env : Env σ) (ref_type : String)
    (checkFunction : String → List Effect × CheckOutcome) (req : Req) : List Effect :=
  if env.isForbidden req then
    [Effect.next (ApiError.notAllowed "Permission denied.")]
  else
    match env.getRequiredParam "content" req with
    | Except.error e => [Effect.next e]
    | Except.ok s =>
      let content := jsTrim (formatComment s)
      if content = "" then
        [Effect.next (ApiError.invalidParam "content" "Content cannot be empty.")]
      else
        let ref_id := req.params "id"
        (checkFunction ref_id).1 ++
          match (checkFunction ref_id).2 with
          | CheckOutcome.threw => [Effect.throwTypeError]
          | CheckOutcome.called (some err) _ => [Effect.next err]
          | CheckOutcome.called none path =>
            -- function (err, comment): `err` is not read
            let comment := (env.createComment ref_type ref_id req.user content).val
            [Effect.createComment ref_type ref_id req.user content] ++
              (if env.isSyncComments then
                [Effect.sendToSNS req.user content ("http://" ++ req.host ++ path)]
              else []) ++
              [Effect.send comment]

/-- The lookup of `POST /article/:id/comment`: the arguments of `callback` are
`err, article, '/article/' + article.id`. -/
def checkArticle {σ : Type} (env : Env σ) (id : String) : List Effect × CheckOutcome :=
  ([Effect.getArticle id],
    match (env.getArticle id).val with
    | none => CheckOutcome.threw
    | some article => CheckOutcome.called (env.getArticle id).err ("/article/" ++ article.id))

/-- The lookup of `POST /wiki/:id/comment`: the arguments of `callback` are
`err, wiki, '/wiki/' + wiki.id`. -/
def checkWiki {σ : Type} (env : Env σ) (id : String) : List Effect × CheckOutcome :=
  ([Effect.getWiki id],
    match (env.getWiki id).val with
    | none => CheckOutcome.threw
    | some wiki => CheckOutcome.called (env.getWiki id).err ("/wiki/" ++ wiki.id))

/-- The lookup of `POST /wikipage/:id/comment`: the arguments of `callback` are
`err, wp, '/wiki/' + wp.wiki_id + '/' + wp.id`. -/
def checkWikiPage {σ : Type} (env : Env σ) (id : String) : List Effect × CheckOutcome :=
  ([Effect.getWikiPage id],
    match (env.getWikiPage id).val with
    | none => CheckOutcome.threw
    | some wp =>
      CheckOutcome.called (env.getWikiPage id).err ("/wiki/" ++ wp.wiki_id ++ "/" ++ wp.id))

/-- The route `POST /article/:id/comment`. -/
def postArticleComment {σ : Type} (env : Env σ) (req : Req) : List Effect :=
  createCommentByType env "article" (checkArticle env) req

/-- The route `POST /wiki/:id/comment`. -/
def postWikiComment {σ : Type} (env : Env σ) (req : Req) : List Effect :=
  createCommentByType env "wiki" (checkWiki env) req

/-- The route `POST /wikipage/:id/comment`. -/
def postWikiPageComment {σ : Type} (env : Env σ) (req : Req) : List Effect :=
  createCommentByType env "wikipage" (checkWikiPage env) req

/-! ## Hot articles -/

/-- The operator `>` on two `reads` values; a comparison with `undefined` is false. -/
def jsGt : Option Int → Option Int → Bool
  | some a, some b => decide (b < a)
  | _, _ => false

/-- The comparator of `getHotArticles`: `a1.reads > a2.reads ? -1 : 1`. -/
def hotCompare (a1 a2 : Article) : Int :=
  if jsGt a1.reads a2.reads then -1 else 1

/-- The loop of the engine's `CountAndMakeRun`: how many elements after
`previousElement` continue the run.  A descending run goes on while
`comparefn(currentElement, previousElement) < 0`, any other run while that order is
not `< 0`. -/
def extendRun {α : Type} (comparefn : α → α → Int) (isDescending : Bool) : α → List α → Nat
  | _, [] => 0
  | previousElement, currentElement :: rest =>
    if isDescending then
      if comparefn currentElement previousElement ≥ 0 then 0
      else extendRun comparefn isDescending currentElement rest + 1
    else
      if comparefn currentElement previousElement < 0 then 0
      else extendRun comparefn isDescending currentElement rest + 1

/-- The engine's `CountAndMakeRun`, the counting part: the length of the run at the
start of the work array and whether it is descending, which is decided by the order of
the second element against the first. -/
def countRun {α : Type} (comparefn : α → α → Int) : List α → Nat × Bool
  | [] => (0, false)
  | [_] => (1, false)
  | elementHigh :: elementLow :: rest =>
    (extendRun comparefn (decide (comparefn elementLow elementHigh < 0)) elementLow rest + 2,
      decide (comparefn elementLow elementHigh < 0))

/-- The engine's `CountAndMakeRun`, the making part: a descending run is reversed in
place.  The result is the run and the elements behind it. -/
def makeRun {α : Type} (comparefn : α → α → Int) (work : List α) : List α × List α :=
  let run := countRun comparefn work
  (if run.2 then (work.take run.1).reverse else work.take run.1, work.drop run.1)

/-- The binary search of the engine's `BinaryInsertionSort`: while `left < right`, with
`mid = left + ((right - left) >> 1)`, the order `comparefn(pivot, work[mid])` moves
`right` to `mid` when it is `< 0` and `left` to `mid + 1` otherwise.  The first argument
bounds the number of rounds; `right - left` rounds are enough. -/
def findInsertionPoint {α : Type} (comparefn : α → α → Int) (pivot : α) (work : List α) :
    Nat → Nat → Nat → Nat
  | 0, left, _ => left
  | fuel + 1, left, right =>
    if left < right then
      match work[left + (right - left) / 2]? with
      | some element =>
        if comparefn pivot element < 0 then
          findInsertionPoint comparefn pivot work fuel left (left + (right - left) / 2)
        else
          findInsertionPoint comparefn pivot work fuel (left + (right - left) / 2 + 1) right
      | none => left
    else left

/-- One round of the engine's `BinaryInsertionSort`: the pivot, the element behind the
sorted part `work`, is stored at the place the binary search finds, and the elements
from there on move one place right. -/
def insertPivot {α : Type} (comparefn : α → α → Int) (work : List α) (pivot : α) : List α :=
  let left := findInsertionPoint comparefn pivot work work.length 0 work.length
  work.take left ++ pivot :: work.drop left

/-- The engine's `BinaryInsertionSort`: the elements behind the run are inserted into it
from left to right. -/
def binaryInsertionSort {α : Type} (comparefn : α → α → Int) (run rest : List α) : List α :=
  rest.foldl (insertPivot comparefn) run

/-- The order `Array.prototype.sort(comparefn)` gives the elements, as V8, the engine of
Node, computes it: an array of fewer than two elements is left alone; otherwise
`CountAndMakeRun` finds the run at the start and `BinaryInsertionSort` extends it over
the array.  That is the whole of the engine's sort for an array of fewer than 64
elements, which is one run to it (`getHotArticles` is called on the 20 most recent
articles).  A longer array the engine cuts into runs made this way and merges them,
taking the element of the later run only when it compares `< 0`; for articles that is
again the order by reads with ties in input order, which by
`arraySort_hotCompare_unique` is the array computed here. -/
def arraySort {α : Type} (comparefn : α → α → Int) (a : List α) : List α :=
  if a.length < 2 then a
  else binaryInsertionSort comparefn (makeRun comparefn a).1 (makeRun comparefn a).2

/-- The arrays of articles the program holds; an array value is a reference, the index
of its elements here. -/
structure Heap where
  arrays : List (List Article)
  deriving DecidableEq, Repr

/-- The elements of the array at a reference. -/
def Heap.read (heap : Heap) (ref : Nat) : List Article :=
  heap.arrays.getD ref []

/-- A new array with the given elements: the heap with it, and its reference. -/
def Heap.alloc (heap : Heap) (elements : List Article) : Heap × Nat :=
  (⟨heap.arrays ++ [elements]⟩, heap.arrays.length)

/-- The array at a reference gets the given elements. -/
def Heap.write (heap : Heap) (ref : Nat) (elements : List Article) : Heap :=
  ⟨heap.arrays.set ref elements⟩

/-- The method `a.slice(start, stop)`: a new array with the elements from `start` up to
`stop`. -/
def arraySlice (heap : Heap) (ref start stop : Nat) : Heap × Nat :=
  heap.alloc (((heap.read ref).take stop).drop start)

/-- The method `a.sort(comparefn)`: the array is sorted in place, and is the value of
the call. -/
def sortInPlace (heap : Heap) (ref : Nat) (comparefn : Article → Article → Int) :
    Heap × Nat :=
  (heap.write ref (arraySort comparefn (heap.read ref)), ref)

/-- The function `getHotArticles(articles)`:
`arr = articles.slice(0).sort(...)`, then `arr.length > 3 ? arr.slice(0, 3) : arr`.
The result is the heap after the call and the array returned. -/
def getHotArticles (heap : Heap) (articles : Nat) : Heap × Nat :=
  let copied := arraySlice heap articles 0 (heap.read articles).length
  let arr := sortInPlace copied.1 copied.2 hotCompare
  if (arr.1.read arr.2).length > 3 then arraySlice arr.1 arr.2 0 3 else arr

/-- The number in `reads`, for an article whose `reads` is set. -/
def Article.readCount (a : Article) : Int :=
  a.reads.getD 0

/-! ## Page routes -/

/-- The route `GET /article/:id`: a waterfall of `articleApi.getArticle`, the publish
check with `cache.incr`, `categoryApi.getCategory` and `commentApi.getCommentsByRef`; the
final callback passes an error to `next`, and renders otherwise.  The result is the state
of the counter backend after the request and the effects of the request. -/
def getArticleRoute {σ : Type} (env : Env σ) (req : Req) (res : Res) (s : σ) :
    σ × List Effect :=
  let id := req.params "id"
  match (env.getArticle id).err, (env.getArticle id).val with
  | some e, _ => (s, [Effect.getArticle id, Effect.next e])
  | none, none => (s, [Effect.getArticle id, Effect.throwTypeError])
  | none, some article =>
    if article.publish_at > env.now then
      (s, [Effect.getArticle id, Effect.next (ApiError.notFound "Article")])
    else
      let counted := env.incr s article.id
      let calls := [Effect.getArticle id, Effect.incr article.id]
      match counted.2.err with
      | some e => (counted.1, calls ++ [Effect.next e])
      | none =>
        let article := { article with reads := counted.2.val }
        let calls := calls ++ [Effect.getCategory article.category_id]
        match (env.getCategory article.category_id).err with
        | some e => (counted.1, calls ++ [Effect.next e])
        | none =>
          let category := (env.getCategory article.category_id).val
          let calls := calls ++ [Effect.getCommentsByRef article.id]
          match (env.getCommentsByRef article.id).err, (env.getCommentsByRef article.id).val with
          | some e, _ => (counted.1, calls ++ [Effect.next e])
          | none, none => (counted.1, calls ++ [Effect.throwTypeError])
          | none, some r =>
            let article := { article with html_content := some (env.md2html article.content) }
            (counted.1, calls ++
              processTheme env "article/article.html"
                (PageModel.article article category r.comments r.nextCommentId) req res)

/-- The route `GET /wiki/:wid/:pid`: a waterfall of `wikiApi.getWikiPageWithContent`,
`cache.incr`, the wiki id check with `wikiApi.getWikiTree`, and
`commentApi.getCommentsByRef`; the final callback passes an error to `next`, and renders
otherwise. -/
def getWikiPageRoute {σ : Type} (env : Env σ) (req : Req) (res : Res) (s : σ) :
    σ × List Effect :=
  let pid := req.params "pid"
  match (env.getWikiPageWithContent pid).err, (env.getWikiPageWithContent pid).val with
  | some e, _ => (s, [Effect.getWikiPageWithContent pid, Effect.next e])
  | none, none => (s, [Effect.getWikiPageWithContent pid, Effect.throwTypeError])
  | none, some page =>
    let counted := env.incr s page.id
    let calls := [Effect.getWikiPageWithContent pid, Effect.incr page.id]
    match counted.2.err with
    | some e => (counted.1, calls ++ [Effect.next e])
    | none =>
      let page := { page with reads := counted.2.val }
      if page.wiki_id ≠ req.params "wid" then
        (counted.1, calls ++ [Effect.next (ApiError.notFound "Wiki")])
      else
        let calls := calls ++ [Effect.getWikiTree page.wiki_id]
        match (env.getWikiTree page.wiki_id).err, (env.getWikiTree page.wiki_id).val with
        | some e, _ => (counted.1, calls ++ [Effect.next e])
        | none, none => (counted.1, calls ++ [Effect.throwTypeError])
        | none, some wiki =>
          let calls := calls ++ [Effect.getCommentsByRef page.id]
          match (env.getCommentsByRef page.id).err, (env.getCommentsByRef page.id).val with
          | some e, _ => (counted.1, calls ++ [Effect.next e])
          | none, none => (counted.1, calls ++ [Effect.throwTypeError])
          | none, some r =>
            (counted.1, calls ++
              processTheme env "wiki/wiki.html"
                (PageModel.wikiPage page (some wiki) wiki.children (env.md2html page.content)
                  r.comments) req res)

/-! ## Search -/

/-- The array `searchTypes`, each entry as (label, value). -/
def searchTypes : List (String × String) :=
  [("All", ""), ("Article", "article"), ("Wiki", "wiki"), ("Discuss", "discuss")]

/-- The outcome of reading a property of a plain object. -/
inductive JsProp where
  | undefined
  | str (s : String)
  | builtin (name : String)
  deriving DecidableEq, Repr

/-- The property names every plain object inherits from `Object.prototype`. -/
def objectPrototypeKeys : List String :=
  ["constructor", "toString", "toLocaleString", "valueOf", "hasOwnProperty",
   "isPrototypeOf", "propertyIsEnumerable", "__proto__", "__defineGetter__",
   "__defineSetter__", "__lookupGetter__", "__lookupSetter__"]

/-- The assignment `r[key] = value` on the own properties of a plain object. -/
def objSet (own : List (String × String)) (key value : String) : List (String × String) :=
  (key, value) :: own.filter (fun kv => kv.1 != key)

/-- The read `r[key]` on a plain object with the given own properties: an own property,
else the property inherited from `Object.prototype`, else `undefined`. -/
def objGet (own : List (String × String)) (key : String) : JsProp :=
  match own.find? (fun kv => kv.1 == key) with
  | some kv => JsProp.str kv.2
  | none => if key ∈ objectPrototypeKeys then JsProp.builtin key else JsProp.undefined

/-- Truthiness of a property value: `undefined` and the empty string are falsy, functions
and objects are truthy. -/
def JsProp.truthy : JsProp → Bool
  | JsProp.undefined => false
  | JsProp.str s => s != ""
  | JsProp.builtin _ => true

/-- The property key a value is converted to: `undefined` becomes the key `undefined`. -/
def propertyKey : Option String → String
  | none => "undefined"
  | some s => s

/-- The object `searchTypeValues`: `_.reduce` over `searchTypes` with
`r[t.value] = t.label`, from the empty object. -/
def searchTypeValues : List (String × String) :=
  searchTypes.foldl (fun r t => objSet r t.2 t.1) []

/-- Match length of a one-character pattern at the start of the input. -/
def matchChar (p : Char) : List Char → Nat
  | [] => 0
  | c :: _ => if c == p then 1 else 0

/-- The query text passed to the engine: `q` with both quote characters removed. -/
def stripQuotes (q : String) : String :=
  ⟨replaceAll (matchChar (Char.ofNat 34)) [] 0
    (replaceAll (matchChar (Char.ofNat 39)) [] 0 q.data)⟩

/-- The value of `type` after `if (!searchTypeValues[type]) type = searchTypes[0].value`. -/
def validatedType (type : Option String) : Option String :=
  if !(objGet searchTypeValues (propertyKey type)).truthy then
    (searchTypes.head?.map Prod.snd)
  else type

/-- The options object built by `GET /search`: a filter when `type` is truthy, and the
cursor. -/
def searchOptions (type : Option String) (page : Page) : SearchOpt :=
  { filter :=
      match validatedType type with
      | some t => if t != "" then some { field := "type", value := t } else none
      | none => none
    start := page.offset
    hit := page.itemsPerPage }

/-- The route `GET /search`. -/
def getSearchRoute {σ : Type} (env : Env σ) (req : Req) (res : Res) : List Effect :=
  let q := match req.query "q" with
    | some t => if t != "" then t else ""
    | none => ""
  if env.searchExternal then
    [Effect.redirect (env.searchUrl q)]
  else
    let type := validatedType (req.query "type")
    let page := env.getPage req
    let opt := searchOptions (req.query "type") page
    Effect.search (stripQuotes q) opt ::
      match (env.search (stripQuotes q) opt).err, (env.search (stripQuotes q) opt).val with
      | some e, _ => [Effect.next e]
      | none, none => [Effect.throwTypeError]
      | none, some r =>
        if r.status ≠ "OK" then [Effect.sendStatus 500]
        else
          match r.result with
          | none => [Effect.throwTypeError]
          | some result =>
            processTheme env "search.html"
              (PageModel.search searchTypes type { page with totalItems := result.total } q
                result.items) req res

/-! ## Sample collaborators

Concrete collaborators and requests, used to evaluate the routes. -/

/-- Collaborators that all succeed: every lookup resolves, the counter backend is one
number that `cache.incr` raises by one, and `getRequiredParam` reads the body. -/
def okEnv : Env Nat :=
  { signins := ["weibo"]
    isSyncComments := false
    searchExternal := false
    cacheKeyWebsiteSettings := "website-settings"
    cacheKeyNavigations := "navigations"
    now := 1000
    renderTime := 1001
    cacheGet := fun key => ⟨none, some ("cached " ++ key)⟩
    navigationsFirst := false
    incr := fun n _ => (n + 1, ⟨none, some (Int.ofNat (n + 1))⟩)
    getArticle := fun id => ⟨none, some ⟨id, 500, "c1", "text", none, none⟩⟩
    getCategory := fun id => ⟨none, some ("category " ++ id)⟩
    getCommentsByRef := fun id => ⟨none, some ⟨some ("comments " ++ id), some "next"⟩⟩
    getWiki := fun id => ⟨none, some ⟨id⟩⟩
    getWikiPage := fun id => ⟨none, some ⟨id, "w1", "text", none⟩⟩
    getWikiPageWithContent := fun id => ⟨none, some ⟨id, "w1", "text", none⟩⟩
    getWikiTree := fun id => ⟨none, some ⟨id, some "children"⟩⟩
    createComment := fun _ _ _ content => ⟨none, some ("comment " ++ content)⟩
    isForbidden := fun req => req.user.isNone
    getRequiredParam := fun name req =>
      match req.body name with
      | some v => Except.ok v
      | none => Except.error (ApiError.invalidParam name "Parameter is required.")
    getPage := fun _ => ⟨0, 10, none⟩
    md2html := fun text => "<p>" ++ text ++ "</p>"
    searchUrl := fun q => "http://search.example/?q=" ++ q
    search := fun _ _ => ⟨none, some ⟨"OK", some ⟨some "items", some 0⟩⟩⟩ }

/-- The cached settings lookup reports an error; the navigations lookup succeeds. -/
def settingsDownEnv : Env Nat :=
  { okEnv with
    cacheGet := fun key =>
      if key = "website-settings" then ⟨some (ApiError.other "cache down"), none⟩
      else ⟨none, some ("cached " ++ key)⟩ }

/-- The persist step `commentApi.createComment` reports an error. -/
def persistDownEnv : Env Nat :=
  { okEnv with
    createComment := fun _ _ _ _ => ⟨some (ApiError.other "insert failed"), none⟩ }

/-- Every target lookup of the comment routes reports not-found and yields no entity. -/
def targetMissingEnv : Env Nat :=
  { okEnv with
    getArticle := fun _ => ⟨some (ApiError.notFound "Article"), none⟩
    getWiki := fun _ => ⟨some (ApiError.notFound "Wiki"), none⟩
    getWikiPage := fun _ => ⟨some (ApiError.notFound "WikiPage"), none⟩ }

/-- The article is scheduled: `publish_at` lies after `now`. -/
def scheduledEnv : Env Nat :=
  { okEnv with getArticle := fun id => ⟨none, some ⟨id, 2000, "c1", "text", none, none⟩⟩ }

/-- The counter backend is down: `cache.incr` reports an error and changes nothing. -/
def counterDownEnv : Env Nat :=
  { okEnv with incr := fun n _ => (n, ⟨some (ApiError.other "counter down"), none⟩) }

/-- A signed-in request with the given path parameter `id`, `wid`, `pid` values, query
`type` and body `content`. -/
def sampleReq (id : String) (type content : Option String) : Req :=
  { host := "example.org"
    user := some "user-1"
    params := fun name => if name = "wid" then "w2" else id
    query := fun name =>
      if name = "q" then some "lean" else if name = "type" then type else none
    body := fun name => if name = "content" then content else none }

/-- A response object with theme path `theme/`. -/
def sampleRes : Res :=
  { themePath := "theme/" }

/-- Five articles with reads 5, 9, 1, 9, 3. -/
def sampleArticles : List Article :=
  [ ⟨"a", 0, "c1", "", some 5, none⟩, ⟨"b", 0, "c1", "", some 9, none⟩,
    ⟨"c", 0, "c1", "", some 1, none⟩, ⟨"d", 0, "c1", "", some 9, none⟩,
    ⟨"e", 0, "c1", "", some 3, none⟩ ]

/-- A heap holding the five sample articles as its one array, at reference 0. -/
def sampleHeap : Heap :=
  ⟨[sampleArticles]⟩

/-- Four articles that all have 5 reads. -/
def tiedArticles : List Article :=
  [ ⟨"a", 0, "c1", "", some 5, none⟩, ⟨"b", 0, "c1", "", some 5, none⟩,
    ⟨"c", 0, "c1", "", some 5, none⟩, ⟨"d", 0, "c1", "", some 5, none⟩ ]

/-! ## Theorems: the article and wiki page routes -/

/-- C1: in `GET /article/:id`, when `articleApi.getArticle` resolves an article whose
`publish_at` is greater than the current time, the request consists of that lookup and
`next(api.notFound('Article'))`: the counter backend is left as it was, and `cache.incr`,
the category lookup, the comment lookup and `res.render` are not called. -/
theorem getArticleRoute_unpublished {σ : Type} (env : Env σ) (req : Req) (res : Res) (s : σ)
    (article : Article)
    (hget : env.getArticle (req.params "id") = ⟨none, some article⟩)
    (hfuture : article.publish_at > env.now) :
    (getArticleRoute env req res s).1 = s ∧
    (getArticleRoute env req res s).2 =
      [Effect.getArticle (req.params "id"), Effect.next (ApiError.notFound "Article")] ∧
    (∀ id, Effect.incr id ∉ (getArticleRoute env req res s).2) ∧
    (∀ id, Effect.getCategory id ∉ (getArticleRoute env req res s).2) ∧
    (∀ id, Effect.getCommentsByRef id ∉ (getArticleRoute env req res s).2) ∧
    (∀ path model, Effect.render path model ∉ (getArticleRoute env req res s).2) := by
  have hrun : getArticleRoute env req res s =
      (s, [Effect.getArticle (req.params "id"), Effect.next (ApiError.notFound "Article")]) := by
    simp [getArticleRoute, hget, hfuture]
  rw [hrun]
  simp

/-- C1, at a scheduled article: the hypotheses hold and the conclusion follows. -/
theorem getArticleRoute_unpublished_witness :
    (getArticleRoute scheduledEnv (sampleReq "a1" none none) sampleRes 7).1 = 7 ∧
    (getArticleRoute scheduledEnv (sampleReq "a1" none none) sampleRes 7).2 =
      [Effect.getArticle "a1", Effect.next (ApiError.notFound "Article")] :=
  have h := getArticleRoute_unpublished scheduledEnv (sampleReq "a1" none none) sampleRes 7
    ⟨"a1", 2000, "c1", "text", none, none⟩ (by decide) (by decide)
  ⟨h.1, h.2.1⟩

/-- C9 as stated fails: a wiki page resolves with a `wiki_id` other than the path's `wid`,
`cache.incr` reports an error, and the request ends with that error, not with
`api.notFound('Wiki')`. -/
theorem getWikiPageRoute_notFound_counterexample :
    ¬ (∀ (env : Env Nat) (req : Req) (res : Res) (s : Nat) (page : WikiPage),
        env.getWikiPageWithContent (req.params "pid") = ⟨none, some page⟩ →
        page.wiki_id ≠ req.params "wid" →
        Effect.next (ApiError.notFound "Wiki") ∈ (getWikiPageRoute env req res s).2) := by
  intro h
  have h1 := h counterDownEnv (sampleReq "p1" none none) sampleRes 7 ⟨"p1", "w1", "text", none⟩
    (by decide) (by decide)
  revert h1
  decide

/-- C9, amended: in `GET /wiki/:wid/:pid`, when `wikiApi.getWikiPageWithContent` resolves a
page whose `wiki_id` differs from the path parameter `wid`, the request consists of that
lookup, `cache.incr` for the page, and one call of `next`: with `api.notFound('Wiki')` when
`cache.incr` reported no error, with the error `cache.incr` reported otherwise.  The wiki
tree fetch, the comment lookup and `res.render` are not called. -/
theorem getWikiPageRoute_wrong_wiki {σ : Type} (env : Env σ) (req : Req) (res : Res) (s : σ)
    (page : WikiPage)
    (hget : env.getWikiPageWithContent (req.params "pid") = ⟨none, some page⟩)
    (hwiki : page.wiki_id ≠ req.params "wid") :
    (getWikiPageRoute env req res s).2 =
      [Effect.getWikiPageWithContent (req.params "pid"), Effect.incr page.id,
        Effect.next (match (env.incr s page.id).2.err with
          | some e => e
          | none => ApiError.notFound "Wiki")] ∧
    (∀ id, Effect.getWikiTree id ∉ (getWikiPageRoute env req res s).2) ∧
    (∀ id, Effect.getCommentsByRef id ∉ (getWikiPageRoute env req res s).2) ∧
    (∀ path model, Effect.render path model ∉ (getWikiPageRoute env req res s).2) := by
  have hrun : (getWikiPageRoute env req res s).2 =
      [Effect.getWikiPageWithContent (req.params "pid"), Effect.incr page.id,
        Effect.next (match (env.incr s page.id).2.err with
          | some e => e
          | none => ApiError.notFound "Wiki")] := by
    cases herr : (env.incr s page.id).2.err <;>
      simp [getWikiPageRoute, hget, hwiki, herr]
  rw [hrun]
  simp

/-- C9, amended, at a page of wiki `w1` requested under `w2`: with a working counter the
request ends with `api.notFound('Wiki')`. -/
theorem getWikiPageRoute_wrong_wiki_witness :
    (getWikiPageRoute okEnv (sampleReq "p1" none none) sampleRes 7).2 =
      [Effect.getWikiPageWithContent "p1", Effect.incr "p1",
        Effect.next (ApiError.notFound "Wiki")] :=
  (getWikiPageRoute_wrong_wiki okEnv (sampleReq "p1" none none) sampleRes 7
    ⟨"p1", "w1", "text", none⟩ (by decide) (by decide)).1

/-! ## Theorems: the sanitiser and comment submission -/

/-- Every character a global replacement returns comes from the replacement text or
from the input. -/
theorem replaceAll_forall (P : Char → Prop) (matchAt : List Char → Nat) (repl : List Char)
    (hrepl : ∀ c ∈ repl, P c) :
    ∀ (cs : List Char) (skip : Nat), (∀ c ∈ cs, P c) →
      ∀ c ∈ replaceAll matchAt repl skip cs, P c := by
  intro cs
  induction cs with
  | nil => intro skip _ c hc; cases skip <;> simp [replaceAll] at hc
  | cons d ds ih =>
    intro skip hcs c hc
    have hds : ∀ c ∈ ds, P c := fun c h => hcs c (List.mem_cons_of_mem _ h)
    cases skip with
    | succ k =>
      rw [replaceAll] at hc
      exact ih k hds c hc
    | zero =>
      rw [replaceAll] at hc
      split at hc
      · rcases List.mem_cons.mp hc with h | h
        · exact h ▸ hcs d (List.mem_cons_self _ _)
        · exact ih 0 hds c h
      · rcases List.mem_append.mp hc with h | h
        · exact hrepl c h
        · exact ih _ hds c h

/-- Trimming a text of whitespace characters only leaves the empty string. -/
theorem jsTrim_whitespace (cs : List Char) (h : ∀ c ∈ cs, isJsWhitespace c = true) :
    jsTrim ⟨cs⟩ = "" := by
  have hdrop : cs.dropWhile isJsWhitespace = [] := by
    rw [List.dropWhile_eq_nil_iff]
    exact h
  simp [jsTrim, hdrop]

/-- A comment of spaces, tabs and newlines only is empty after sanitising and trimming. -/
theorem formatComment_blank (s : String)
    (hblank : ∀ c ∈ s.data, c = ' ' ∨ c = '\t' ∨ c = '\n') :
    jsTrim (formatComment s) = "" := by
  apply jsTrim_whitespace
  apply replaceAll_forall (fun c => isJsWhitespace c = true) _ _ (by simp)
  apply replaceAll_forall (fun c => isJsWhitespace c = true) _ _ (by decide)
  intro c hc
  rcases hblank c hc with h | h | h <;> subst h <;> decide

/-- C8: in `createCommentByType`, for a request that is not forbidden for guests and whose
content consists of spaces, tabs and newlines only, the request consists of
`next(api.invalidParam('content', 'Content cannot be empty.'))` alone: whatever the target
lookup `checkFunction` would do, none of it happens, and `commentApi.createComment` is not
called. -/
theorem createCommentByType_blank_content {σ : Type} (env : Env σ) (ref_type : String)
    (checkFunction : String → List Effect × CheckOutcome) (req : Req) (s : String)
    (hguest : env.isForbidden req = false)
    (hparam : env.getRequiredParam "content" req = Except.ok s)
    (hblank : ∀ c ∈ s.data, c = ' ' ∨ c = '\t' ∨ c = '\n') :
    createCommentByType env ref_type checkFunction req =
      [Effect.next (ApiError.invalidParam "content" "Content cannot be empty.")] ∧
    (∀ e ∈ createCommentByType env ref_type checkFunction req,
      e.isTargetLookup = false ∧ e.isCreateComment = false) := by
  have hrun : createCommentByType env ref_type checkFunction req =
      [Effect.next (ApiError.invalidParam "content" "Content cannot be empty.")] := by
    simp [createCommentByType, hguest, hparam, formatComment_blank s hblank]
  rw [hrun]
  simp [Effect.isTargetLookup, Effect.isCreateComment]

/-- C8, at the content of two spaces, three newlines and two spaces, on the article
comment route. -/
theorem createCommentByType_blank_content_witness :
    postArticleComment okEnv (sampleReq "a1" none (some "  \n\n\n  ")) =
      [Effect.next (ApiError.invalidParam "content" "Content cannot be empty.")] :=
  (createCommentByType_blank_content okEnv "article" (checkArticle okEnv)
    (sampleReq "a1" none (some "  \n\n\n  ")) "  \n\n\n  " (by decide) rfl
    (by decide)).1

/-! ## Theorems: hot articles -/

/-- On articles whose `reads` is set, the comparator is negative exactly when the first
article has more reads than the second. -/
theorem hotCompare_neg_iff (a b : Article) (ha : a.reads.isSome = true)
    (hb : b.reads.isSome = true) :
    hotCompare a b < 0 ↔ b.readCount < a.readCount := by
  obtain ⟨x, hx⟩ := Option.isSome_iff_exists.mp ha
  obtain ⟨y, hy⟩ := Option.isSome_iff_exists.mp hb
  simp only [hotCompare, jsGt, Article.readCount, hx, hy, Option.getD_some]
  by_cases h : y < x <;> simp [h]

/-- The binary search keeps its invariant: in a part sorted by reads, highest first,
every element before the place found has at least the reads of the pivot, and every
element from the place on has fewer. -/
theorem findInsertionPoint_spec (pivot : Article) (work : List Article)
    (hp : pivot.reads.isSome = true) (hw : ∀ x ∈ work, x.reads.isSome = true)
    (hs : work.Pairwise (fun x y => y.readCount ≤ x.readCount)) :
    ∀ (fuel left right : Nat), left ≤ right → right ≤ work.length → right - left ≤ fuel →
      (∀ x ∈ work.take left, pivot.readCount ≤ x.readCount) →
      (∀ x ∈ work.drop right, x.readCount < pivot.readCount) →
      (∀ x ∈ work.take (findInsertionPoint hotCompare pivot work fuel left right),
        pivot.readCount ≤ x.readCount) ∧
      (∀ x ∈ work.drop (findInsertionPoint hotCompare pivot work fuel left right),
        x.readCount < pivot.readCount) := by
  intro fuel
  induction fuel with
  | zero =>
    intro left right hlr _ hfuel hlo hhi
    have : left = right := by omega
    subst this
    exact ⟨hlo, hhi⟩
  | succ fuel ih =>
    intro left right hlr hrl hfuel hlo hhi
    rw [findInsertionPoint]
    split
    · rename_i hlt
      have hmid : left + (right - left) / 2 < work.length := by omega
      have hsplit : work = work.take (left + (right - left) / 2) ++
          work[left + (right - left) / 2] :: work.drop (left + (right - left) / 2 + 1) := by
        rw [← List.drop_eq_getElem_cons hmid, List.take_append_drop]
      have hs2 := hs
      rw [hsplit, List.pairwise_append, List.pairwise_cons] at hs2
      obtain ⟨_, ⟨hafter, _⟩, hcross⟩ := hs2
      have hmidset : (work[left + (right - left) / 2]).reads.isSome = true :=
        hw _ (List.getElem_mem _)
      rw [List.getElem?_eq_getElem hmid]
      simp only
      split
      · rename_i hneg
        have hgt := (hotCompare_neg_iff pivot _ hp hmidset).mp hneg
        refine ih left _ (by omega) (by omega) (by omega) hlo ?_
        intro x hx
        rw [List.drop_eq_getElem_cons hmid] at hx
        rcases List.mem_cons.mp hx with h | h
        · exact h ▸ hgt
        · exact lt_of_le_of_lt (hafter x h) hgt
      · rename_i hneg
        have hle : pivot.readCount ≤ (work[left + (right - left) / 2]).readCount := by
          have := mt (hotCompare_neg_iff pivot _ hp hmidset).mpr hneg
          omega
        refine ih _ right (by omega) hrl (by omega) ?_ hhi
        intro x hx
        rw [List.take_succ, List.getElem?_eq_getElem hmid] at hx
        rcases List.mem_append.mp hx with h | h
        · exact le_trans hle (hcross x h _ (List.mem_cons_self _ _))
        · simp at h
          exact h ▸ hle
    · rename_i hlt
      have : left = right := by omega
      subst this
      exact ⟨hlo, hhi⟩

/-- Inserting the pivot adds it to the elements of the sorted part. -/
theorem insertPivot_perm {α : Type} (comparefn : α → α → Int) (work : List α) (pivot : α) :
    (insertPivot comparefn work pivot).Perm (pivot :: work) := by
  unfold insertPivot
  refine List.perm_middle.trans ?_
  rw [List.take_append_drop]

/-- Inserting the pivot keeps the sorted part sorted by reads, highest first. -/
theorem insertPivot_sorted (pivot : Article) (work : List Article)
    (hp : pivot.reads.isSome = true) (hw : ∀ x ∈ work, x.reads.isSome = true)
    (hs : work.Pairwise (fun x y => y.readCount ≤ x.readCount)) :
    (insertPivot hotCompare work pivot).Pairwise (fun x y => y.readCount ≤ x.readCount) := by
  obtain ⟨hlo, hhi⟩ := findInsertionPoint_spec pivot work hp hw hs work.length 0 work.length
    (Nat.zero_le _) (le_refl _) (by omega) (by simp) (by simp)
  unfold insertPivot
  have hs2 := hs
  rw [← List.take_append_drop
    (findInsertionPoint hotCompare pivot work work.length 0 work.length) work,
    List.pairwise_append] at hs2
  obtain ⟨htake, hdrop, hcross⟩ := hs2
  rw [List.pairwise_append, List.pairwise_cons]
  refine ⟨htake, ⟨fun y hy => le_of_lt (hhi y hy), hdrop⟩, ?_⟩
  intro x hx y hy
  rcases List.mem_cons.mp hy with h | h
  · exact h ▸ hlo x hx
  · exact hcross x hx y h


/-- The elements counted into a run are ordered from each to the next: by rising reads
in a descending run (the comparator is negative on more reads), by reads that do not
rise in any other run. -/
theorem extendRun_chain (isDescending : Bool) :
    ∀ (rest : List Article) (previous : Article), previous.reads.isSome = true →
      (∀ x ∈ rest, x.reads.isSome = true) →
      List.Chain
        (fun x y => if isDescending then x.readCount < y.readCount
          else y.readCount ≤ x.readCount)
        previous (rest.take (extendRun hotCompare isDescending previous rest)) := by
  intro rest
  induction rest with
  | nil => intro previous _ _; simp [extendRun]
  | cons current rest ih =>
    intro previous hp hr
    have hc : current.reads.isSome = true := hr current (List.mem_cons_self _ _)
    have hrest : ∀ x ∈ rest, x.reads.isSome = true :=
      fun x h => hr x (List.mem_cons_of_mem _ h)
    have hiff := hotCompare_neg_iff current previous hc hp
    rw [extendRun]
    cases isDescending with
    | true =>
      by_cases hneg : hotCompare current previous < 0
      · have hge : ¬ hotCompare current previous ≥ 0 := by omega
        simp only [hge, if_true, if_false, List.take_succ_cons]
        exact List.Chain.cons (by simpa using hiff.mp hneg) (ih current hc hrest)
      · have hge : hotCompare current previous ≥ 0 := by omega
        simp only [hge, if_true, List.take_zero]
        exact List.Chain.nil
    | false =>
      by_cases hneg : hotCompare current previous < 0
      · simp only [hneg, if_true, Bool.false_eq_true, if_false, List.take_zero]
        exact List.Chain.nil
      · simp only [hneg, if_false, Bool.false_eq_true, List.take_succ_cons]
        refine List.Chain.cons ?_ (ih current hc hrest)
        have hle : current.readCount ≤ previous.readCount := by
          have := mt hiff.mpr hneg
          omega
        exact hle

/-- The run and the elements behind it are the elements of the array. -/
theorem makeRun_perm {α : Type} (comparefn : α → α → Int) (work : List α) :
    ((makeRun comparefn work).1 ++ (makeRun comparefn work).2).Perm work := by
  simp only [makeRun]
  cases (countRun comparefn work).2 with
  | true =>
    refine (List.Perm.append_right _ (List.reverse_perm _)).trans ?_
    rw [List.take_append_drop]
  | false =>
    simp only [Bool.false_eq_true, if_false]
    rw [List.take_append_drop]

/-- The run made at the start of the array is sorted by reads, highest first. -/
theorem makeRun_sorted (work : List Article) (hw : ∀ x ∈ work, x.reads.isSome = true) :
    (makeRun hotCompare work).1.Pairwise (fun x y => y.readCount ≤ x.readCount) := by
  match work, hw with
  | [], _ => simp [makeRun, countRun]
  | [x], _ => simp [makeRun, countRun]
  | elementHigh :: elementLow :: rest, hw =>
    have h0 : elementHigh.reads.isSome = true := hw _ (List.mem_cons_self _ _)
    have h1 : elementLow.reads.isSome = true :=
      hw _ (List.mem_cons_of_mem _ (List.mem_cons_self _ _))
    have hrest : ∀ x ∈ rest, x.reads.isSome = true :=
      fun x h => hw x (List.mem_cons_of_mem _ (List.mem_cons_of_mem _ h))
    have hiff := hotCompare_neg_iff elementLow elementHigh h1 h0
    by_cases hneg : hotCompare elementLow elementHigh < 0
    · have hchain := extendRun_chain true rest elementLow h1 hrest
      simp only [if_true] at hchain
      haveI : IsTrans Article (fun x y => x.readCount < y.readCount) :=
        ⟨fun _ _ _ hab hbc => lt_trans hab hbc⟩
      have hpair : (elementHigh :: elementLow ::
          rest.take (extendRun hotCompare true elementLow rest)).Pairwise
            (fun x y => x.readCount < y.readCount) :=
        List.chain_iff_pairwise.mp (List.Chain.cons (hiff.mp hneg) hchain)
      simp only [makeRun, countRun, hneg, decide_True, if_true, List.take_succ_cons]
      rw [List.pairwise_reverse]
      exact hpair.imp (fun h => le_of_lt h)
    · have hchain := extendRun_chain false rest elementLow h1 hrest
      simp only [Bool.false_eq_true, if_false] at hchain
      haveI : IsTrans Article (fun x y => y.readCount ≤ x.readCount) :=
        ⟨fun _ _ _ hab hbc => le_trans hbc hab⟩
      have hle : elementLow.readCount ≤ elementHigh.readCount := by
        have := mt hiff.mpr hneg
        omega
      have hpair : (elementHigh :: elementLow ::
          rest.take (extendRun hotCompare false elementLow rest)).Pairwise
            (fun x y => y.readCount ≤ x.readCount) :=
        List.chain_iff_pairwise.mp (List.Chain.cons hle hchain)
      simpa only [makeRun, countRun, hneg, decide_False, Bool.false_eq_true, if_false,
        List.take_succ_cons] using hpair

/-- The binary insertion sort rearranges the run and the elements behind it. -/
theorem binaryInsertionSort_perm {α : Type} (comparefn : α → α → Int) (rest run : List α) :
    (binaryInsertionSort comparefn run rest).Perm (run ++ rest) := by
  induction rest generalizing run with
  | nil => simp [binaryInsertionSort]
  | cons pivot rest ih =>
    simp only [binaryInsertionSort, List.foldl_cons]
    refine (ih (insertPivot comparefn run pivot)).trans ?_
    refine (List.Perm.append_right rest (insertPivot_perm comparefn run pivot)).trans ?_
    have hmiddle : (run ++ pivot :: rest).Perm (pivot :: (run ++ rest)) := List.perm_middle
    simpa using hmiddle.symm

/-- The binary insertion sort extends a run sorted by reads, highest first, to one over
all elements. -/
theorem binaryInsertionSort_sorted (rest run : List Article)
    (hrun : ∀ x ∈ run, x.reads.isSome = true) (hrest : ∀ x ∈ rest, x.reads.isSome = true)
    (hs : run.Pairwise (fun x y => y.readCount ≤ x.readCount)) :
    (binaryInsertionSort hotCompare run rest).Pairwise
      (fun x y => y.readCount ≤ x.readCount) := by
  induction rest generalizing run with
  | nil => simpa [binaryInsertionSort] using hs
  | cons pivot rest ih =>
    simp only [binaryInsertionSort, List.foldl_cons]
    have hp : pivot.reads.isSome = true := hrest pivot (List.mem_cons_self _ _)
    refine ih _ ?_ (fun x h => hrest x (List.mem_cons_of_mem _ h)) ?_
    · intro x hx
      rcases List.mem_cons.mp ((insertPivot_perm hotCompare run pivot).mem_iff.mp hx) with h | h
      · exact h ▸ hp
      · exact hrun x h
    · exact insertPivot_sorted pivot run hp hrun hs

/-- The sorted array is a rearrangement of the array. -/
theorem arraySort_perm {α : Type} (comparefn : α → α → Int) (a : List α) :
    (arraySort comparefn a).Perm a := by
  unfold arraySort
  split
  · exact List.Perm.refl _
  · exact (binaryInsertionSort_perm comparefn _ _).trans (makeRun_perm comparefn a)

/-- Sorting articles whose `reads` is set orders them by reads, highest first. -/
theorem arraySort_hotCompare_sorted (a : List Article)
    (ha : ∀ x ∈ a, x.reads.isSome = true) :
    (arraySort hotCompare a).Pairwise (fun x y => y.readCount ≤ x.readCount) := by
  have hmem : ∀ x, x ∈ (makeRun hotCompare a).1 ++ (makeRun hotCompare a).2 → x ∈ a :=
    fun x h => (makeRun_perm hotCompare a).mem_iff.mp h
  unfold arraySort
  split
  · rename_i hlen
    match a, hlen with
    | [], _ => exact List.Pairwise.nil
    | [x], _ => exact List.pairwise_singleton _ _
  · exact binaryInsertionSort_sorted _ _
      (fun x h => ha x (hmem x (List.mem_append_left _ h)))
      (fun x h => ha x (hmem x (List.mem_append_right _ h)))
      (makeRun_sorted a ha)


/-- A new array holds the elements it was made with. -/
theorem Heap.read_alloc_new (heap : Heap) (elements : List Article) :
    (heap.alloc elements).1.read (heap.alloc elements).2 = elements := by
  simp [Heap.alloc, Heap.read, List.getD_eq_getElem?_getD]

/-- Making a new array leaves the arrays there were as they are. -/
theorem Heap.read_alloc_old (heap : Heap) (elements : List Article) (ref : Nat)
    (href : ref < heap.arrays.length) :
    (heap.alloc elements).1.read ref = heap.read ref := by
  simp [Heap.alloc, Heap.read, List.getD_eq_getElem?_getD, List.getElem?_append_left href]

/-- An array written to holds the elements written. -/
theorem Heap.read_write_same (heap : Heap) (elements : List Article) (ref : Nat)
    (href : ref < heap.arrays.length) :
    (heap.write ref elements).read ref = elements := by
  simp [Heap.write, Heap.read, List.getD_eq_getElem?_getD, href]

/-- Writing to an array leaves every other array as it is. -/
theorem Heap.read_write_other (heap : Heap) (elements : List Article) (ref other : Nat)
    (hne : other ≠ ref) :
    (heap.write ref elements).read other = heap.read other := by
  simp [Heap.write, Heap.read, List.getD_eq_getElem?_getD, List.getElem?_set_ne (Ne.symm hne)]

/-- The array `getHotArticles` returns holds the first three elements of the sorted
copy (all of them when there are at most three), and the array passed in holds what it
held. -/
theorem getHotArticles_read (heap : Heap) (articles : Nat)
    (hvalid : articles < heap.arrays.length) :
    (getHotArticles heap articles).1.read (getHotArticles heap articles).2 =
      (arraySort hotCompare (heap.read articles)).take 3 ∧
    (getHotArticles heap articles).1.read articles = heap.read articles := by
  have hcopy : (arraySlice heap articles 0 (heap.read articles).length).1.read
      (arraySlice heap articles 0 (heap.read articles).length).2 = heap.read articles := by
    simp [arraySlice, Heap.read_alloc_new]
  have hnew : (arraySlice heap articles 0 (heap.read articles).length).2 = heap.arrays.length := rfl
  have hlen : (arraySlice heap articles 0 (heap.read articles).length).1.arrays.length =
      heap.arrays.length + 1 := by
    simp [arraySlice, Heap.alloc]
  have hsorted : (sortInPlace (arraySlice heap articles 0 (heap.read articles).length).1
      (arraySlice heap articles 0 (heap.read articles).length).2 hotCompare).1.read
      heap.arrays.length = arraySort hotCompare (heap.read articles) := by
    simp only [sortInPlace, hcopy]
    rw [hnew]
    exact Heap.read_write_same _ _ _ (by omega)
  have hkept : (sortInPlace (arraySlice heap articles 0 (heap.read articles).length).1
      (arraySlice heap articles 0 (heap.read articles).length).2 hotCompare).1.read
      articles = heap.read articles := by
    simp only [sortInPlace]
    rw [Heap.read_write_other _ _ _ _ (by rw [hnew]; omega)]
    exact Heap.read_alloc_old _ _ _ hvalid
  have hlen2 : (sortInPlace (arraySlice heap articles 0 (heap.read articles).length).1
      (arraySlice heap articles 0 (heap.read articles).length).2 hotCompare).1.arrays.length =
      heap.arrays.length + 1 := by
    simp [sortInPlace, Heap.write, hlen]
  have hsnd : (sortInPlace (arraySlice heap articles 0 (heap.read articles).length).1
      (arraySlice heap articles 0 (heap.read articles).length).2 hotCompare).2 =
      heap.arrays.length := rfl
  simp only [getHotArticles]
  generalize sortInPlace (arraySlice heap articles 0 (heap.read articles).length).1
      (arraySlice heap articles 0 (heap.read articles).length).2 hotCompare = sorted
    at hsorted hkept hlen2 hsnd ⊢
  rw [hsnd, hsorted]
  split
  · refine ⟨?_, ?_⟩
    · rw [arraySlice, Heap.read_alloc_new, hsorted, List.drop_zero]
    · rw [arraySlice, Heap.read_alloc_old _ _ _ (by omega)]
      exact hkept
  · rename_i hshort
    refine ⟨?_, hkept⟩
    rw [hsnd, hsorted]
    exact (List.take_of_length_le (by omega)).symm


/-- Five articles `a, b, c, d, e` with reads 5, 9, 1, 9, 3 are sorted to
`b, d, a, e, c`. -/
theorem arraySort_reads_example (articles : List Article)
    (h5 : articles.map Article.reads = [some 5, some 9, some 1, some 9, some 3]) :
    ∃ a b c d e, articles = [a, b, c, d, e] ∧ arraySort hotCompare articles = [b, d, a, e, c] := by
  rcases articles with _ | ⟨a, _ | ⟨b, _ | ⟨c, _ | ⟨d, _ | ⟨e, _ | ⟨f, t⟩⟩⟩⟩⟩⟩ <;>
    simp only [List.map_cons, List.map_nil, List.cons.injEq, and_true, reduceCtorEq,
      and_false, false_and] at h5
  obtain ⟨ha, hb, hc, hd, he⟩ := h5
  refine ⟨a, b, c, d, e, rfl, ?_⟩
  simp [arraySort, binaryInsertionSort, insertPivot, findInsertionPoint, makeRun, countRun,
    extendRun, hotCompare, jsGt, ha, hb, hc, hd, he]

/-- C7: for every array of articles whose `reads` is set, `getHotArticles` returns an
array of `min(3, n)` articles; they and some rest together are a rearrangement of the
input, and every article of the rest has at most the reads of every article returned;
the articles returned are in non-increasing order of reads; the input array holds after
the call what it held before.  On articles with reads 5, 9, 1, 9, 3 the articles returned
have reads 9, 9 and 5. -/
theorem getHotArticles_top3 (heap : Heap) (articles : Nat)
    (hvalid : articles < heap.arrays.length)
    (hreads : ∀ a ∈ heap.read articles, a.reads.isSome = true) :
    ((getHotArticles heap articles).1.read (getHotArticles heap articles).2).length =
      min 3 (heap.read articles).length ∧
    (∃ rest,
      ((getHotArticles heap articles).1.read (getHotArticles heap articles).2 ++ rest).Perm
        (heap.read articles) ∧
      ∀ x ∈ rest, ∀ y ∈ (getHotArticles heap articles).1.read (getHotArticles heap articles).2,
        x.readCount ≤ y.readCount) ∧
    ((getHotArticles heap articles).1.read (getHotArticles heap articles).2).Pairwise
      (fun a b => b.readCount ≤ a.readCount) ∧
    (getHotArticles heap articles).1.read articles = heap.read articles ∧
    ((heap.read articles).map Article.reads = [some 5, some 9, some 1, some 9, some 3] →
      ((getHotArticles heap articles).1.read (getHotArticles heap articles).2).map
        Article.reads = [some 9, some 9, some 5]) := by
  obtain ⟨hhot, hkept⟩ := getHotArticles_read heap articles hvalid
  have hperm := arraySort_perm hotCompare (heap.read articles)
  have hsorted := arraySort_hotCompare_sorted (heap.read articles) hreads
  rw [hhot]
  refine ⟨?_, ⟨(arraySort hotCompare (heap.read articles)).drop 3, ?_, ?_⟩, ?_, hkept, ?_⟩
  · rw [List.length_take, hperm.length_eq]
  · rw [List.take_append_drop]
    exact hperm
  · intro x hx y hy
    have hsplit := hsorted
    rw [← List.take_append_drop 3 (arraySort hotCompare (heap.read articles)),
      List.pairwise_append] at hsplit
    exact hsplit.2.2 y hy x hx
  · exact hsorted.sublist (List.take_sublist _ _)
  · intro h5
    obtain ⟨a, b, c, d, e, hl, hs⟩ := arraySort_reads_example _ h5
    rw [hl] at h5
    simp only [List.map_cons, List.map_nil, List.cons.injEq, and_true] at h5
    obtain ⟨ha, hb, hc, hd, he⟩ := h5
    simp [hs, ha, hb, hd]

/-- C7, at the five sample articles with reads 5, 9, 1, 9, 3: three articles are
returned, `b`, `d` and `a` (reads 9, 9 and 5), and the array passed in is unchanged. -/
theorem getHotArticles_top3_witness :
    ((getHotArticles sampleHeap 0).1.read (getHotArticles sampleHeap 0).2).length = 3 ∧
    ((getHotArticles sampleHeap 0).1.read (getHotArticles sampleHeap 0).2).map Article.id =
      ["b", "d", "a"] ∧
    (getHotArticles sampleHeap 0).1.read 0 = sampleArticles :=
  have h := getHotArticles_top3 sampleHeap 0 (by decide) (by decide)
  ⟨h.1, by decide, h.2.2.2.1⟩


/-- Inserting the pivot puts it behind the elements of the sorted part that have its
reads: among the articles with any one number of reads, it comes last. -/
theorem insertPivot_filter (pivot : Article) (work : List Article) (v : Int)
    (hp : pivot.reads.isSome = true) (hw : ∀ x ∈ work, x.reads.isSome = true)
    (hs : work.Pairwise (fun x y => y.readCount ≤ x.readCount)) :
    (insertPivot hotCompare work pivot).filter (fun x => decide (x.readCount = v)) =
      work.filter (fun x => decide (x.readCount = v)) ++
        [pivot].filter (fun x => decide (x.readCount = v)) := by
  obtain ⟨_, hhi⟩ := findInsertionPoint_spec pivot work hp hw hs work.length 0 work.length
    (Nat.zero_le _) (le_refl _) (by omega) (by simp) (by simp)
  unfold insertPivot
  generalize findInsertionPoint hotCompare pivot work work.length 0 work.length = p at hhi ⊢
  have hsplit : work.filter (fun x => decide (x.readCount = v)) =
      (work.take p).filter (fun x => decide (x.readCount = v)) ++
        (work.drop p).filter (fun x => decide (x.readCount = v)) := by
    rw [← List.filter_append, List.take_append_drop]
  rw [hsplit, List.filter_append]
  by_cases hv : pivot.readCount = v
  · have hnone : (work.drop p).filter (fun x => decide (x.readCount = v)) = [] := by
      rw [List.filter_eq_nil_iff]
      intro x hx
      have := hhi x hx
      simp only [decide_eq_true_eq]
      omega
    simp [List.filter_cons, hv, hnone]
  · simp [List.filter_cons, hv]

/-- The binary insertion sort keeps the articles with any one number of reads in their
order: those of the run, then those behind it. -/
theorem binaryInsertionSort_filter (rest run : List Article) (v : Int)
    (hrun : ∀ x ∈ run, x.reads.isSome = true) (hrest : ∀ x ∈ rest, x.reads.isSome = true)
    (hs : run.Pairwise (fun x y => y.readCount ≤ x.readCount)) :
    (binaryInsertionSort hotCompare run rest).filter (fun x => decide (x.readCount = v)) =
      run.filter (fun x => decide (x.readCount = v)) ++
        rest.filter (fun x => decide (x.readCount = v)) := by
  induction rest generalizing run with
  | nil => simp [binaryInsertionSort]
  | cons pivot rest ih =>
    simp only [binaryInsertionSort, List.foldl_cons]
    have hp : pivot.reads.isSome = true := hrest pivot (List.mem_cons_self _ _)
    have hins : ∀ x ∈ insertPivot hotCompare run pivot, x.reads.isSome = true := by
      intro x hx
      rcases List.mem_cons.mp ((insertPivot_perm hotCompare run pivot).mem_iff.mp hx) with h | h
      · exact h ▸ hp
      · exact hrun x h
    have := ih (insertPivot hotCompare run pivot) hins
      (fun x h => hrest x (List.mem_cons_of_mem _ h)) (insertPivot_sorted pivot run hp hrun hs)
    simp only [binaryInsertionSort] at this
    rw [this, insertPivot_filter pivot run v hp hrun hs, List.append_assoc,
      ← List.filter_append]
    rfl

/-- A descending run has strictly rising reads, so no two of its articles have the
same reads. -/
theorem countRun_descending_strict (work : List Article)
    (hw : ∀ x ∈ work, x.reads.isSome = true) (hdesc : (countRun hotCompare work).2 = true) :
    (work.take (countRun hotCompare work).1).Pairwise (fun x y => x.readCount < y.readCount) := by
  match work, hw, hdesc with
  | [], _, _ => simp
  | [x], _, _ => simp [countRun]
  | elementHigh :: elementLow :: rest, hw, hdesc =>
    have h0 : elementHigh.reads.isSome = true := hw _ (List.mem_cons_self _ _)
    have h1 : elementLow.reads.isSome = true :=
      hw _ (List.mem_cons_of_mem _ (List.mem_cons_self _ _))
    have hrest : ∀ x ∈ rest, x.reads.isSome = true :=
      fun x h => hw x (List.mem_cons_of_mem _ (List.mem_cons_of_mem _ h))
    have hneg : hotCompare elementLow elementHigh < 0 := by
      simpa [countRun] using hdesc
    have hchain := extendRun_chain true rest elementLow h1 hrest
    simp only [if_true] at hchain
    haveI : IsTrans Article (fun x y => x.readCount < y.readCount) :=
      ⟨fun _ _ _ hab hbc => lt_trans hab hbc⟩
    simp only [countRun, hneg, decide_True, List.take_succ_cons]
    exact List.chain_iff_pairwise.mp
      (List.Chain.cons ((hotCompare_neg_iff elementLow elementHigh h1 h0).mp hneg) hchain)

/-- Reversing articles with strictly rising reads does not change the order among the
articles with any one number of reads: there is at most one. -/
theorem filter_reverse_of_strict (l : List Article) (v : Int)
    (hl : l.Pairwise (fun x y => x.readCount < y.readCount)) :
    l.reverse.filter (fun x => decide (x.readCount = v)) =
      l.filter (fun x => decide (x.readCount = v)) := by
  rw [List.filter_reverse]
  have hsub : (l.filter (fun x => decide (x.readCount = v))).Sublist l :=
    List.filter_sublist l
  have hpair := hl.sublist hsub
  have hall : ∀ x ∈ l.filter (fun x => decide (x.readCount = v)), x.readCount = v := by
    intro x hx
    simpa using (List.mem_filter.mp hx).2
  generalize l.filter (fun x => decide (x.readCount = v)) = m at hpair hall
  match m, hpair, hall with
  | [], _, _ => rfl
  | [x], _, _ => rfl
  | x :: y :: t, hpair, hall =>
    have hx := hall x (List.mem_cons_self _ _)
    have hy := hall y (List.mem_cons_of_mem _ (List.mem_cons_self _ _))
    have := (List.pairwise_cons.mp hpair).1 y (List.mem_cons_self _ _)
    omega

/-- Making the run keeps the articles with any one number of reads in their order. -/
theorem makeRun_filter (work : List Article) (v : Int)
    (hw : ∀ x ∈ work, x.reads.isSome = true) :
    (makeRun hotCompare work).1.filter (fun x => decide (x.readCount = v)) ++
        (makeRun hotCompare work).2.filter (fun x => decide (x.readCount = v)) =
      work.filter (fun x => decide (x.readCount = v)) := by
  have hsplit : work.filter (fun x => decide (x.readCount = v)) =
      (work.take (countRun hotCompare work).1).filter (fun x => decide (x.readCount = v)) ++
        (work.drop (countRun hotCompare work).1).filter (fun x => decide (x.readCount = v)) := by
    rw [← List.filter_append, List.take_append_drop]
  rw [hsplit]
  simp only [makeRun]
  cases hdesc : (countRun hotCompare work).2 with
  | true =>
    simp only [if_true]
    rw [filter_reverse_of_strict _ v (countRun_descending_strict work hw hdesc)]
  | false => simp only [Bool.false_eq_true, if_false]

/-- The sort is stable: articles with the same reads come out in the order they went
in. -/
theorem arraySort_hotCompare_stable (a : List Article) (v : Int)
    (ha : ∀ x ∈ a, x.reads.isSome = true) :
    (arraySort hotCompare a).filter (fun x => decide (x.readCount = v)) =
      a.filter (fun x => decide (x.readCount = v)) := by
  have hmem : ∀ x, x ∈ (makeRun hotCompare a).1 ++ (makeRun hotCompare a).2 → x ∈ a :=
    fun x h => (makeRun_perm hotCompare a).mem_iff.mp h
  unfold arraySort
  split
  · rfl
  · rw [binaryInsertionSort_filter _ _ v
      (fun x h => ha x (hmem x (List.mem_append_left _ h)))
      (fun x h => ha x (hmem x (List.mem_append_right _ h)))
      (makeRun_sorted a ha)]
    exact makeRun_filter a v ha

/-- Two arrays of articles that are both sorted by reads, highest first, and hold the
same articles in the same order for every number of reads, are the same array. -/
theorem sorted_stable_unique :
    ∀ (l₁ l₂ : List Article),
      l₁.Pairwise (fun x y => y.readCount ≤ x.readCount) →
      l₂.Pairwise (fun x y => y.readCount ≤ x.readCount) →
      (∀ v : Int, l₁.filter (fun x => decide (x.readCount = v)) =
        l₂.filter (fun x => decide (x.readCount = v))) →
      l₁ = l₂ := by
  intro l₁
  induction l₁ with
  | nil =>
    intro l₂ _ _ hf
    cases l₂ with
    | nil => rfl
    | cons y t =>
      have := hf y.readCount
      simp [List.filter_cons] at this
  | cons x t₁ ih =>
    intro l₂ h₁ h₂ hf
    cases l₂ with
    | nil =>
      have := hf x.readCount
      simp [List.filter_cons] at this
    | cons y t₂ =>
      rw [List.pairwise_cons] at h₁ h₂
      have hxmem : x ∈ y :: t₂ := by
        have hx : x ∈ (x :: t₁).filter (fun z => decide (z.readCount = x.readCount)) := by
          simp [List.filter_cons]
        rw [hf x.readCount] at hx
        exact (List.mem_filter.mp hx).1
      have hymem : y ∈ x :: t₁ := by
        have hy : y ∈ (y :: t₂).filter (fun z => decide (z.readCount = y.readCount)) := by
          simp [List.filter_cons]
        rw [← hf y.readCount] at hy
        exact (List.mem_filter.mp hy).1
      have hxy : x.readCount ≤ y.readCount := by
        rcases List.mem_cons.mp hxmem with h | h
        · rw [h]
        · exact h₂.1 x h
      have hyx : y.readCount ≤ x.readCount := by
        rcases List.mem_cons.mp hymem with h | h
        · rw [h]
        · exact h₁.1 y h
      have hkey : y.readCount = x.readCount := le_antisymm hyx hxy
      have hhead := hf x.readCount
      simp only [List.filter_cons, hkey, decide_True, if_true, List.cons.injEq] at hhead
      obtain ⟨hxeq, _⟩ := hhead
      subst hxeq
      congr 1
      refine ih t₂ h₁.2 h₂.2 ?_
      intro v
      have hv := hf v
      simp only [List.filter_cons] at hv
      split at hv
      · exact List.tail_eq_of_cons_eq hv
      · exact hv

/-- Whatever way the articles are sorted by reads, highest first, with articles of the
same reads kept in input order, the outcome is the array `arraySort` computes. -/
theorem arraySort_hotCompare_unique (a sorted : List Article)
    (ha : ∀ x ∈ a, x.reads.isSome = true)
    (hsorted : sorted.Pairwise (fun x y => y.readCount ≤ x.readCount))
    (hstable : ∀ v : Int, sorted.filter (fun x => decide (x.readCount = v)) =
      a.filter (fun x => decide (x.readCount = v))) :
    sorted = arraySort hotCompare a :=
  sorted_stable_unique sorted (arraySort hotCompare a) hsorted
    (arraySort_hotCompare_sorted a ha)
    (fun v => (hstable v).trans (arraySort_hotCompare_stable a v ha).symm)

/-- Four articles that all have 5 reads: the first three are returned, in input order. -/
theorem getHotArticles_ties_example :
    ((getHotArticles ⟨[tiedArticles]⟩ 0).1.read (getHotArticles ⟨[tiedArticles]⟩ 0).2).map
      Article.id = ["a", "b", "c"] := by
  decide

/-! ## Theorems: where the code departs from the specification -/

/-- Whatever the two cached lookups report, `processTheme` starts both and then calls
`res.render` once; it makes no other call. -/
theorem processTheme_always_renders {σ : Type} (env : Env σ) (view : String)
    (model : PageModel) (req : Req) (res : Res) :
    ∃ themed, processTheme env view model req res =
      [Effect.cacheGet env.cacheKeyWebsiteSettings, Effect.cacheGet env.cacheKeyNavigations,
        Effect.render (res.themePath ++ view) themed] :=
  ⟨_, rfl⟩

/-- When both cached lookups succeed, `processTheme` renders with `__website__` and
`__navigations__` set to their two results. -/
theorem processTheme_both_succeed {σ : Type} (env : Env σ) (view : String)
    (model : PageModel) (req : Req) (res : Res) (website navigations : Payload)
    (hw : env.cacheGet env.cacheKeyWebsiteSettings = ⟨none, some website⟩)
    (hn : env.cacheGet env.cacheKeyNavigations = ⟨none, some navigations⟩) :
    processTheme env view model req res =
      [Effect.cacheGet env.cacheKeyWebsiteSettings, Effect.cacheGet env.cacheKeyNavigations,
        Effect.render (res.themePath ++ view)
          { page := model
            website := some website
            navigations := some navigations
            signins := env.signins
            user := req.user
            time := env.renderTime
            requestHost := req.host }] := by
  cases hfirst : env.navigationsFirst <;>
    simp [processTheme, hw, hn, hfirst, appendCached, asyncParallel, resultsGet, List.find?]

/-- Once the target lookup called back without an error, `createCommentByType` calls
`commentApi.createComment` and then `res.send` with whatever comment came back, whether
or not the persist step reported an error. -/
theorem createCommentByType_always_sends {σ : Type} (env : Env σ) (ref_type : String)
    (checkFunction : String → List Effect × CheckOutcome) (req : Req) (s path : String)
    (lookup : List Effect)
    (hguest : env.isForbidden req = false)
    (hparam : env.getRequiredParam "content" req = Except.ok s)
    (hcontent : jsTrim (formatComment s) ≠ "")
    (hcheck : checkFunction (req.params "id") = (lookup, CheckOutcome.called none path)) :
    createCommentByType env ref_type checkFunction req =
      lookup ++
        ([Effect.createComment ref_type (req.params "id") req.user (jsTrim (formatComment s))] ++
          (if env.isSyncComments then
            [Effect.sendToSNS req.user (jsTrim (formatComment s))
              ("http://" ++ req.host ++ path)]
          else []) ++
          [Effect.send
            (env.createComment ref_type (req.params "id") req.user
              (jsTrim (formatComment s))).val]) := by
  simp [createCommentByType, hguest, hparam, hcontent, hcheck]

/-- C2: with the cached settings lookup reporting an error, `processTheme` still calls
`res.render`, with `__website__` and `__navigations__` undefined, and the error reaches
nobody: `next` is not called. -/
theorem processTheme_renders_on_error :
    (appendCached (settingsDownEnv.cacheGet settingsDownEnv.cacheKeyWebsiteSettings)).err =
      some (ApiError.other "cache down") ∧
    processTheme settingsDownEnv "index.html" (PageModel.other "home")
        (sampleReq "a1" none none) sampleRes =
      [Effect.cacheGet "website-settings", Effect.cacheGet "navigations",
        Effect.render "theme/index.html"
          { page := PageModel.other "home"
            website := none
            navigations := none
            signins := ["weibo"]
            user := some "user-1"
            time := 1001
            requestHost := "example.org" }] := by
  decide

/-- C3: with `commentApi.createComment` reporting an error, for a signed-in request with
content `hello` whose article resolves, `createCommentByType` sends the (undefined)
comment with `res.send`, and `next` is not called. -/
theorem createCommentByType_persist_error_sent :
    (persistDownEnv.createComment "article" "a1" (some "user-1") "hello").err =
      some (ApiError.other "insert failed") ∧
    postArticleComment persistDownEnv (sampleReq "a1" none (some "hello")) =
      [Effect.getArticle "a1", Effect.createComment "article" "a1" (some "user-1") "hello",
        Effect.send none] := by
  decide

/-- C4: with the target lookup reporting not-found and yielding no entity, each of the
three comment routes throws a `TypeError` while building the arguments of the callback
(`article.id`, `wiki.id`, `wp.wiki_id` of `undefined`): `next` is not called with the
not-found error.  (`commentApi.createComment` is not called either.) -/
theorem comment_routes_throw_on_missing_target :
    targetMissingEnv.getArticle "a1" = ⟨some (ApiError.notFound "Article"), none⟩ ∧
    postArticleComment targetMissingEnv (sampleReq "a1" none (some "hello")) =
      [Effect.getArticle "a1", Effect.throwTypeError] ∧
    postWikiComment targetMissingEnv (sampleReq "a1" none (some "hello")) =
      [Effect.getWiki "a1", Effect.throwTypeError] ∧
    postWikiPageComment targetMissingEnv (sampleReq "a1" none (some "hello")) =
      [Effect.getWikiPage "a1", Effect.throwTypeError] := by
  decide

/-- C5: `formatComment` removes the script tags it finds in one pass; the text around a
removed tag can close up to a new tag, so the result of `<scr<script>ipt>` is `<script>`. -/
theorem formatComment_leaves_script_tag :
    formatComment "<scr<script>ipt>" = "<script>" ∧
    containsScriptTag (formatComment "<scr<script>ipt>").data = true := by
  decide

/-- C6: in `GET /search` with a non-external engine and `type=constructor`, the lookup
`searchTypeValues[type]` finds the property inherited from `Object.prototype`, so the
type is kept and the options passed to the engine carry the filter
`{ field: 'type', value: 'constructor' }`; with `type=bogus` they carry no filter. -/
theorem getSearchRoute_constructor_filter :
    (getSearchRoute okEnv (sampleReq "" (some "constructor") none) sampleRes).head? =
      some (Effect.search "lean"
        { filter := some { field := "type", value := "constructor" }, start := 0, hit := 10 }) ∧
    (getSearchRoute okEnv (sampleReq "" (some "bogus") none) sampleRes).head? =
      some (Effect.search "lean" { filter := none, start := 0, hit := 10 }) := by
  decide

/-- In `GET /search`, a `type` that is neither `article`, `wiki` nor `discuss` and is not a
property name of `Object.prototype` gives options without a filter. -/
theorem searchOptions_unknown_type (type : Option String) (page : Page)
    (hown : propertyKey type ∉ ["article", "wiki", "discuss"])
    (hproto : propertyKey type ∉ objectPrototypeKeys) :
    searchOptions type page = { filter := none, start := page.offset, hit := page.itemsPerPage } := by
  simp only [List.mem_cons, List.mem_singleton, List.not_mem_nil, or_false, not_or] at hown
  obtain ⟨h1, h2, h3⟩ := hown
  have e1 : ("article" == propertyKey type) = false := by simpa using Ne.symm h1
  have e2 : ("wiki" == propertyKey type) = false := by simpa using Ne.symm h2
  have e3 : ("discuss" == propertyKey type) = false := by simpa using Ne.symm h3
  by_cases h0 : propertyKey type = ""
  · have e0 : ("" == propertyKey type) = true := by simp [h0]
    have ht : type = some "" := by
      cases type with
      | none => simp [propertyKey] at h0
      | some t => simpa [propertyKey] using h0
    simp [searchOptions, validatedType, objGet, searchTypeValues, searchTypes, objSet,
      List.find?, JsProp.truthy, e0, e1, e2, e3, ht]
  · have e0 : ("" == propertyKey type) = false := by simpa using Ne.symm h0
    simp [searchOptions, validatedType, objGet, searchTypeValues, searchTypes, objSet,
      List.find?, JsProp.truthy, e0, e1, e2, e3, hproto]

/-- C10: `formatComment` collapses the newline runs before it removes the script tags; a
tag between two newlines leaves them next to each other, so the result of
`a\n<script>\nb` is `a\n\nb`. -/
theorem formatComment_leaves_double_newline :
    formatComment "a\n<script>\nb" = "a\n\nb" ∧
    hasDoubleNewline (formatComment "a\n<script>\nb").data = true := by
  decide

end Theme
